import Mathlib

/-!
Shallow embedding of `src/load.py` (ar_carga_sabana): the price normaliser
`validar_precio`, the structured-code validator `validar_codigo`, the month
validator `validar_mes`, the text cleaner `limpiar_texto`, the pipeline
`limpiar_y_validar_dataframe` (cleaning, 2025 filtering, batch validation),
the month transformer `transformar_meses`, and the transactional load of
`main`.

Python strings are modelled as `List Char` (`Str`).  Python `float` values
are modelled as exact signed finite decimals (`Dec`): every IEEE double is a
finite decimal, and in Python 3 `str`/`float` round-trip exactly, which
`Dec.str` / `floatParse` mirror (the rendering may keep leading or trailing
zeros that Python would normalise away, which is observationally equivalent
under re-parsing, the only use the program makes of float rendering).
Special float spellings (nan, inf, exponent form, underscores in literals)
are outside the model; no claim concerns them.  `PyVal.noneV` models Python
`None` and stands in for a pandas missing value (`NaN`), whose behaviour
coincides with `None` for every operation the claims touch (`pd.isna`,
`astype(str)` feeding `validar_codigo`, `to_numeric`).
-/

namespace Sabana

abbrev Str := List Char

/-- ASCII whitespace stripped by Python `str.strip()` and `float()`. -/
def isSpace (c : Char) : Bool :=
  c == ' ' || c == '\t' || c == '\n' || c == '\r' || c == '\x0b' || c == '\x0c'

/-- Python `str.strip()`. -/
def pyStrip (s : Str) : Str :=
  ((s.dropWhile isSpace).reverse.dropWhile isSpace).reverse

/-- Python `str.upper()`; ASCII letters, which covers every comparison the
program performs. -/
def pyUpper (s : Str) : Str := s.map Char.toUpper

/-- Python `str.isdigit()` on ASCII text: nonempty and all digits. -/
def pyIsdigit (s : Str) : Bool := !s.isEmpty && s.all Char.isDigit

/-- Python `str.split(sep)` for a one-character separator: empty parts are
kept and `"".split(sep) == [""]`, so the result is never the empty list. -/
def pySplit (sep : Char) : Str → List Str
  | [] => [[]]
  | c :: cs =>
    match pySplit sep cs with
    | [] => [[]]
    | p :: ps => if c = sep then [] :: p :: ps else (c :: p) :: ps

/-- Join with a separator; left inverse of `pySplit`. -/
def joinSep (sep : Char) : List Str → Str
  | [] => []
  | [p] => p
  | p :: q :: ps => p ++ sep :: joinSep sep (q :: ps)

/-- Python `s.replace(old, "")`, leftmost non-overlapping occurrences; the
program only ever replaces by the empty string.  Structural recursion on a
fuel bounded by the string length (each step consumes at least one
character), so the kernel can evaluate it. -/
def pyRemoveF (old : Str) : ℕ → Str → Str
  | _, [] => []
  | 0, s => s
  | fuel + 1, c :: cs =>
    if old.isPrefixOf (c :: cs) then pyRemoveF old fuel (cs.drop (old.length - 1))
    else c :: pyRemoveF old fuel cs

def pyRemove (old : Str) (s : Str) : Str := pyRemoveF old s.length s

/-- Python `needle in hay` on strings: substring containment. -/
def pyContains (needle : Str) : Str → Bool
  | [] => needle.isEmpty
  | c :: cs => needle.isPrefixOf (c :: cs) || pyContains needle cs

/-- The decimal digit characters. -/
def digitChar (n : ℕ) : Char :=
  if n = 0 then '0' else if n = 1 then '1' else if n = 2 then '2'
  else if n = 3 then '3' else if n = 4 then '4' else if n = 5 then '5'
  else if n = 6 then '6' else if n = 7 then '7' else if n = 8 then '8' else '9'

/-- Numeric value of a digit string (most significant first). -/
def digitsVal (s : Str) : ℕ := s.foldl (fun a c => 10 * a + (c.toNat - 48)) 0

/-- Decimal digits of a natural number, most significant first. -/
def natDigits (n : ℕ) : Str :=
  if _h : n < 10 then [digitChar n]
  else natDigits (n / 10) ++ [digitChar (n % 10)]
decreasing_by exact Nat.div_lt_self (by omega) (by omega)

/-- A Python float modelled as an exact signed finite decimal:
value `(-1)^neg * m / 10^e`. -/
structure Dec where
  neg : Bool
  m : ℕ
  e : ℕ
deriving DecidableEq

/-- Exact rational value of a `Dec`. -/
def Dec.toRat (d : Dec) : ℚ :=
  (if d.neg then -(d.m : ℚ) else (d.m : ℚ)) / (10 : ℚ) ^ d.e

/-- Python `str()` of a float: sign, integer digits, and — when there is a
fractional part — a decimal point with `e` digits after it. -/
def Dec.str (d : Dec) : Str :=
  let ds := natDigits d.m
  let pad := List.replicate (d.e + 1 - ds.length) '0' ++ ds
  (if d.neg then ['-'] else []) ++
    (if d.e = 0 then ds
     else pad.take (pad.length - d.e) ++ '.' :: pad.drop (pad.length - d.e))

/-- Python `int()` applied to a float: truncation toward zero. -/
def Dec.trunc (d : Dec) : ℤ :=
  if d.neg then -((d.m / 10 ^ d.e : ℕ) : ℤ) else ((d.m / 10 ^ d.e : ℕ) : ℤ)

/-- Python `x < 0` on a float, computed on the decimal representation (the
kernel cannot evaluate rational arithmetic); `Dec.isNeg_iff` ties it to the
rational value. -/
def Dec.isNeg (d : Dec) : Bool := d.neg && d.m != 0

/-- Python `x == n` comparing a float with a natural number, computed on
the decimal representation; `Dec.eqNat_toRat` ties it to the rational
value. -/
def Dec.eqNat (d : Dec) (n : ℕ) : Bool :=
  d.m == n * 10 ^ d.e && (!d.neg || d.m == 0)

/-- Python `float(s)` on decimal literals: optional surrounding whitespace,
optional sign, digits with an optional decimal point, at least one digit. -/
def floatParse (s : Str) : Option Dec :=
  match pyStrip s with
  | [] => none
  | c :: cs =>
    let neg := c == '-'
    let u := if c == '-' || c == '+' then cs else c :: cs
    let ip := u.takeWhile Char.isDigit
    match u.dropWhile Char.isDigit with
    | [] => if ip.isEmpty then none else some ⟨neg, digitsVal ip, 0⟩
    | '.' :: fp =>
      if fp.all Char.isDigit && !(ip.isEmpty && fp.isEmpty) then
        some ⟨neg, digitsVal (ip ++ fp), fp.length⟩
      else none
    | _ => none

/-- A Python scalar as it occurs in the DataFrame cells the program reads. -/
inductive PyVal where
  | str : Str → PyVal
  | int : ℤ → PyVal
  | float : Dec → PyVal
  | noneV : PyVal
deriving DecidableEq

/-- Python `str()` of an integer. -/
def intStr (z : ℤ) : Str :=
  if z < 0 then '-' :: natDigits z.natAbs else natDigits z.natAbs

/-- Python `str(value)`. -/
def pyStrOfVal : PyVal → Str
  | .str s => s
  | .int z => intStr z
  | .float d => d.str
  | .noneV => "None".data

/-- pandas `pd.isna` on a scalar cell: only the missing value is NA. -/
def isna : PyVal → Bool
  | .noneV => true
  | _ => false

/-- The Python float literal `0.0`. -/
def cero : Dec := ⟨false, 0, 1⟩

/-- `textos_a_reemplazar` of `validar_precio` (src/load.py line 19), in
source order. -/
def textos_a_reemplazar : List Str :=
  ["ANULADO", "BONIFICADO", "BONIFICADO ANULADO", "BONIFICADO PERDIDO",
   "BONIFICADO  PERDIDO"].map String.data

/-- The shared tail of `validar_precio` (src/load.py lines 36-42): numeric
parse of the cleaned text, negative and non-numeric coercion.  `pd.notna`
of the cleaned text, always a string there, is always true. -/
def parsePrecio (limpio valor_original : Str) : Dec × String :=
  match floatParse limpio with
  | some d =>
    if d.isNeg then (cero, "Reemplazado por 0 (valor negativo)")
    else (d, "OK")
  | none =>
    (cero, "Reemplazado por 0 (valor no numérico: \x27"
      ++ String.mk valor_original ++ "\x27)")

/-- `validar_precio` (src/load.py lines 17-42). -/
def validar_precio (valor : PyVal) : Dec × String :=
  let valor_original := pyStrOfVal valor
  match valor with
  | .str s =>
    let v := pyUpper (pyStrip s)
    match textos_a_reemplazar.find? (fun t => pyContains t v) with
    | some t =>
      (cero, "Reemplazado por 0 (contiene \x27" ++ String.mk t ++ "\x27)")
    | none =>
      parsePrecio (pyRemove ",".data (pyRemove " ".data (pyRemove "S/".data v)))
        valor_original
  | _ => parsePrecio valor_original valor_original

/-- `limpiar_texto` (src/load.py lines 61-65). -/
def limpiar_texto (valor : PyVal) : PyVal :=
  match valor with
  | .str s => .str (pyUpper (pyStrip s))
  | v => v

/-- Python `codigo[-1].isdigit()`; `codigo` is nonempty whenever the source
evaluates this (the empty string fails the six-segments check first). -/
def lastIsDigit (s : Str) : Bool :=
  match s.getLast? with
  | some c => c.isDigit
  | none => false

/-- `validar_codigo` (src/load.py lines 67-86). -/
def validar_codigo (codigo : PyVal) : Bool × String :=
  match codigo with
  | .str s =>
    let partes := pySplit '-' s
    if partes.length ≠ 6 then
      (false, "Debe tener 5 guiones (tiene " ++ toString (partes.length - 1) ++ ")")
    else if ¬ (partes.all pyIsdigit) then
      (false, "Todas las partes deben ser numéricas")
    else if (partes.getD 4 []).length ≠ 6 then
      (false, "La parte 5 debe tener 6 dígitos (año-mes)")
    else if ¬ lastIsDigit s then
      (false, "Debe terminar con un dígito")
    else
      (true, "Válido")
  | _ => (false, "No es una cadena de texto")

/-- `meses_validos` of `validar_mes` (src/load.py lines 90-94). -/
def meses_validos : List Str :=
  ["ENERO", "FEBRERO", "MARZO", "ABRIL", "MAYO", "JUNIO",
   "JULIO", "AGOSTO", "SEPTIEMBRE", "SETIEMBRE",
   "OCTUBRE", "NOVIEMBRE", "DICIEMBRE"].map String.data

/-- `validar_mes` (src/load.py lines 88-100); `int()` on a float truncates
toward zero. -/
def validar_mes (mes : PyVal) : Bool :=
  match mes with
  | .str s => meses_validos.contains (pyUpper (pyStrip s))
  | .int z => decide (1 ≤ z ∧ z ≤ 12)
  | .float d => decide (1 ≤ d.trunc ∧ d.trunc ≤ 12)
  | .noneV => false

/-- `meses_a_numeros` of `transformar_meses` (src/load.py lines 281-286). -/
def meses_a_numeros : List (Str × ℤ) :=
  [("ENERO", 1), ("FEBRERO", 2), ("MARZO", 3), ("ABRIL", 4), ("MAYO", 5),
   ("JUNIO", 6), ("JULIO", 7), ("AGOSTO", 8),
   ("SEPTIEMBRE", 9), ("SETIEMBRE", 9),
   ("OCTUBRE", 10), ("NOVIEMBRE", 11), ("DICIEMBRE", 12)].map
    (fun p => (p.1.data, (p.2 : ℤ)))

/-- The per-cell transform of `transformar_meses` (src/load.py lines
288-291): `meses_a_numeros.get(str(x).strip().upper(), x)` on strings,
anything else unchanged. -/
def mesANumero (v : PyVal) : PyVal :=
  match v with
  | .str s =>
    match meses_a_numeros.find? (fun p => p.1 == pyUpper (pyStrip s)) with
    | some p => .int p.2
    | none => .str s
  | x => x

/-- One raw input row, with the columns `limpiar_y_validar_dataframe` and
the insert read; `lima` stands for the column `LIMA QUE PERTENECE`.  The
marketing-campaign flag/date columns are only forwarded verbatim to the
insert and carry no validation logic, so they are not modelled. -/
structure Record where
  asesor : PyVal
  precio : PyVal
  codigo : PyVal
  tipo : PyVal
  inmobiliaria : PyVal
  servicio : PyVal
  proyecto : PyVal
  distrito : PyVal
  lima : PyVal
  mesFacturacion : PyVal
  mesRealizacion : PyVal
  anioFacturacion : PyVal
  anioRealizacion : PyVal
deriving DecidableEq

/-- A row after step 1 of `limpiar_y_validar_dataframe`: `PRECIO` replaced
by the cleaned float, the seven `columnas_texto` forced to strings by
`astype(str).str.strip().str.upper()`, the two year columns coerced by
`pd.to_numeric(errors="coerce")` (so missing on failure).  `TIPO` is not in
`columnas_texto` and keeps its raw value. -/
structure CleanRecord where
  asesor : Str
  precio : Dec
  codigo : Str
  tipo : PyVal
  inmobiliaria : Str
  servicio : Str
  proyecto : Str
  distrito : Str
  lima : Str
  mesFacturacion : PyVal
  mesRealizacion : PyVal
  anioFacturacion : Option Dec
  anioRealizacion : Option Dec
deriving DecidableEq

/-- pandas `df[col].astype(str).str.strip().str.upper()` on one cell. -/
def aTexto (v : PyVal) : Str := pyUpper (pyStrip (pyStrOfVal v))

/-- pandas `pd.to_numeric(x, errors="coerce")` on one cell: numbers pass,
numeric strings parse, everything else becomes missing. -/
def pyToNumeric : PyVal → Option Dec
  | .int z => some (if z < 0 then ⟨true, z.natAbs, 0⟩ else ⟨false, z.natAbs, 0⟩)
  | .float d => some d
  | .str s => floatParse s
  | .noneV => none

/-- Step 1 of `limpiar_y_validar_dataframe` (src/load.py lines 111-161) on
one row. -/
def limpiarRecord (r : Record) : CleanRecord :=
  { asesor := aTexto r.asesor
    precio := (validar_precio r.precio).1
    codigo := aTexto r.codigo
    tipo := r.tipo
    inmobiliaria := aTexto r.inmobiliaria
    servicio := aTexto r.servicio
    proyecto := aTexto r.proyecto
    distrito := aTexto r.distrito
    lima := aTexto r.lima
    mesFacturacion := r.mesFacturacion
    mesRealizacion := r.mesRealizacion
    anioFacturacion := pyToNumeric r.anioFacturacion
    anioRealizacion := pyToNumeric r.anioRealizacion }

/-- One entry of the side-channel report of modified prices
(`precios_modificados`, src/load.py lines 124-132); `CODIGO` and `ASESOR`
are read before the text columns are cleaned. -/
structure ModEntry where
  fila : ℕ
  precioOriginal : PyVal
  precioLimpio : Dec
  motivo : String
  codigo : PyVal
  asesor : PyVal
deriving DecidableEq

/-- The `precios_modificados` report of step 1: one entry per row whose
price message is not `"OK"`, in row order, `Fila = index + 2`. -/
def modEntries (df : List Record) : List ModEntry :=
  df.enum.filterMap fun p =>
    let res := validar_precio p.2.precio
    if res.2 ≠ "OK" then
      some ⟨p.1 + 2, p.2.precio, res.1, res.2, p.2.codigo, p.2.asesor⟩
    else none

/-- Step 1 of `limpiar_y_validar_dataframe` over the whole DataFrame,
keeping the pandas row index. -/
def limpieza (df : List Record) : List (ℕ × CleanRecord) :=
  df.enum.map fun p => (p.1, limpiarRecord p.2)

/-- The year test of `df_2025` (src/load.py lines 171-174): year present
and equal to 2025. -/
def esAnio2025 (a : Option Dec) : Bool :=
  match a with
  | some d => d.eqNat 2025
  | none => false

/-- `df_2025` (src/load.py lines 171-174). -/
def df_2025 (dfc : List (ℕ × CleanRecord)) : List (ℕ × CleanRecord) :=
  dfc.filter fun p => esAnio2025 p.2.anioFacturacion

/-- The `CODIGO_VALIDO` column (src/load.py line 181). -/
def codigoValido (r : CleanRecord) : Bool := (validar_codigo (.str r.codigo)).1

/-- `df_filtrado` (src/load.py line 219): 2025 rows with a valid code. -/
def df_filtrado (dfc : List (ℕ × CleanRecord)) : List (ℕ × CleanRecord) :=
  (df_2025 dfc).filter fun p => codigoValido p.2

/-- `otros_anios` (src/load.py line 222): rows whose year column is *not
equal* to 2025, which in pandas keeps the rows with a missing year. -/
def otros_anios (dfc : List (ℕ × CleanRecord)) : List (ℕ × CleanRecord) :=
  dfc.filter fun p => ! esAnio2025 p.2.anioFacturacion

/-- `df_final` (src/load.py line 223): the concatenation built by the
filter step.  The source computes it and logs its two halves but then
returns `df_filtrado`, so this value never reaches the caller. -/
def df_final (dfc : List (ℕ × CleanRecord)) : List (ℕ × CleanRecord) :=
  df_filtrado dfc ++ otros_anios dfc

/-- `obtener_info_registro` (src/load.py lines 102-104) on a cleaned row
(all three fields are present and already strings there). -/
def obtener_info_registro (r : CleanRecord) : String :=
  "CODIGO: " ++ String.mk r.codigo ++ " | ASESOR: " ++ String.mk r.asesor
    ++ " | PROYECTO: " ++ String.mk r.proyecto

/-- `campos_requeridos` (src/load.py line 243) with each field's value in
source order; the seven cleaned text columns are strings, `TIPO` is raw. -/
def campos_requeridos (r : CleanRecord) : List (String × PyVal) :=
  [("ASESOR", .str r.asesor), ("INMOBILIARIA", .str r.inmobiliaria),
   ("TIPO", r.tipo), ("SERVICIO", .str r.servicio),
   ("PROYECTO", .str r.proyecto), ("DISTRITO", .str r.distrito),
   ("LIMA QUE PERTENECE", .str r.lima)]

/-- `not isinstance(v, str) or not v.strip()` (src/load.py line 245). -/
def campoInvalido (v : PyVal) : Bool :=
  match v with
  | .str s => (pyStrip s).isEmpty
  | _ => true

/-- `errores_registro` for one row (src/load.py lines 240-264): mandatory
fields, the two month columns, and the price. -/
def erroresRegistro (r : CleanRecord) : List String :=
  ((campos_requeridos r).filterMap fun p =>
    if campoInvalido p.2 then some (p.1 ++ " inválido (vacío o no texto)")
    else none)
  ++ (if isna r.mesFacturacion then ["MES DE FACTURACIÓN está vacío"]
      else if ! validar_mes r.mesFacturacion then
        ["MES DE FACTURACIÓN inválido: " ++ String.mk (pyStrOfVal r.mesFacturacion)]
      else [])
  ++ (if isna r.mesRealizacion then ["MES REALIZACIÓN está vacío"]
      else if ! validar_mes r.mesRealizacion then
        ["MES REALIZACIÓN inválido: " ++ String.mk (pyStrOfVal r.mesRealizacion)]
      else [])
  ++ (if r.precio.isNeg then
        ["PRECIO inválido: " ++ String.mk r.precio.str]
      else [])

/-- The formatted block one failing row contributes to `errores`
(src/load.py lines 266-268). -/
def bloqueErrores (r : CleanRecord) (es : List String) : String :=
  "\nREGISTRO CON ERRORES - " ++ obtener_info_registro r ++ ":\n"
    ++ String.intercalate "\n" (es.map fun e => "  - " ++ e)

/-- The batch-wide `errores` list of step 3 (src/load.py lines 236-268),
built over `df_filtrado` in row order. -/
def errores (rows : List (ℕ × CleanRecord)) : List String :=
  rows.filterMap fun p =>
    let es := erroresRegistro p.2
    if es.isEmpty then none else some (bloqueErrores p.2 es)

/-- The `ValueError` message of step 3 (src/load.py lines 270-275): the
first 5 blocks joined by newlines, plus a count of the remainder. -/
def mkErrorMsg (errs : List String) : String :=
  let base := "Errores de validación encontrados:"
    ++ String.intercalate "\n" (errs.take 5)
  if 5 < errs.length then
    base ++ "\n  ... y " ++ toString (errs.length - 5)
      ++ " registros más con errores"
  else base

/-- `limpiar_y_validar_dataframe` (src/load.py lines 106-277): clean, keep
the 2025 rows with a valid code, run the completeness pass over them, and
either raise (`Except.error` with the aggregated message) or return
`df_filtrado`.  `df_final`, the concatenation with `otros_anios`, is built
and logged by the source but not returned. -/
def limpiar_y_validar_dataframe (df : List Record) :
    Except String (List (ℕ × CleanRecord)) :=
  let dfc := limpieza df
  let filt := df_filtrado dfc
  let errs := errores filt
  if errs.isEmpty then .ok filt else .error (mkErrorMsg errs)

/-- `transformar_meses` (src/load.py lines 279-292) on one row. -/
def transformarMesesRecord (r : CleanRecord) : CleanRecord :=
  { r with
    mesFacturacion := mesANumero r.mesFacturacion
    mesRealizacion := mesANumero r.mesRealizacion }

/-- Re-inject a cleaned row as a raw row, the form in which a second run of
the cleaning stage would read it: the price is a float, the text columns
are strings, a present year is a float and a missing one is NA. -/
def reinject (c : CleanRecord) : Record :=
  { asesor := .str c.asesor
    precio := .float c.precio
    codigo := .str c.codigo
    tipo := c.tipo
    inmobiliaria := .str c.inmobiliaria
    servicio := .str c.servicio
    proyecto := .str c.proyecto
    distrito := .str c.distrito
    lima := .str c.lima
    mesFacturacion := c.mesFacturacion
    mesRealizacion := c.mesRealizacion
    anioFacturacion := match c.anioFacturacion with
      | some d => .float d
      | none => .noneV
    anioRealizacion := match c.anioRealizacion with
      | some d => .float d
      | none => .noneV }

/-- Observable database actions of `main` (src/load.py lines 304-419). -/
inductive DbEvent where
  | connect : DbEvent
  | insert : ℕ → DbEvent
  | commit : DbEvent
  | rollback : DbEvent
  | close : DbEvent
deriving DecidableEq

/-- The insert loop of `main` (src/load.py lines 344-400) over the row
indices, with driver-level failure as an oracle on the row index: events
emitted (the failing attempt included) and whether every insert succeeded;
the loop stops at the first failure, which the source re-raises. -/
def insertLoop (fails : ℕ → Bool) : List ℕ → List DbEvent × Bool
  | [] => ([], true)
  | i :: rest =>
    if fails i then ([.insert i], false)
    else
      let r := insertLoop fails rest
      (.insert i :: r.1, r.2)

/-- `main` (src/load.py lines 304-419), the Excel read assumed to succeed
and the driver abstracted by the `fails` oracle: the pipeline runs first;
only on success does the connection open; a failed insert triggers
`rollback` and a `ValueError`, full success triggers `commit`; the
`finally` block closes the connection whenever one was opened.  The result
is the trace of database events plus the outcome. -/
def mainRun (df : List Record) (fails : ℕ → Bool) :
    List DbEvent × Except String Unit :=
  match limpiar_y_validar_dataframe df with
  | .error e => ([], .error e)
  | .ok rows =>
    let rows2 := rows.map fun p => (p.1, transformarMesesRecord p.2)
    let r := insertLoop fails (rows2.map Prod.fst)
    if r.2 then
      (DbEvent.connect :: r.1 ++ [DbEvent.commit, DbEvent.close], .ok ())
    else
      (DbEvent.connect :: r.1 ++ [DbEvent.rollback, DbEvent.close],
       .error "No se insertó ningún registro debido a errores")

/-- The ten decimal digit characters, for finite case analysis. -/
def DIGITS : List Char := ['0', '1', '2', '3', '4', '5', '6', '7', '8', '9']

/-- The cleaned text of `validar_precio` on the marker-free string path
(src/load.py line 32): currency symbol, spaces and commas removed from the
trimmed upper-cased value. -/
def precioLimpioStr (s : Str) : Str :=
  pyRemove ",".data (pyRemove " ".data (pyRemove "S/".data (pyUpper (pyStrip s))))

/-- The sentinel of the cancellation-marker scan of `validar_precio`
(src/load.py lines 27-28). -/
def contieneMarcador (s : Str) : Bool :=
  textos_a_reemplazar.any fun t => pyContains t (pyUpper (pyStrip s))

/-- The seven `columnas_texto` values of a raw row, in source order
(src/load.py line 155). -/
def textFields (r : Record) : List PyVal :=
  [r.asesor, r.inmobiliaria, r.servicio, r.proyecto, r.distrito, r.lima,
   r.codigo]

/-- The same seven columns of a cleaned row. -/
def textFieldsClean (c : CleanRecord) : List Str :=
  [c.asesor, c.inmobiliaria, c.servicio, c.proyecto, c.distrito, c.lima,
   c.codigo]

/-- A fully valid 2025 sample row. -/
def recBuena : Record :=
  { asesor := .str "ana".data
    precio := .str "S/ 1,234.50".data
    codigo := .str "0-35-13-3203-012025-100".data
    tipo := .str "VENTA".data
    inmobiliaria := .str "inmo".data
    servicio := .str "serv".data
    proyecto := .str "proy".data
    distrito := .str "dist".data
    lima := .str "norte".data
    mesFacturacion := .str "Enero".data
    mesRealizacion := .int 3
    anioFacturacion := .int 2025
    anioRealizacion := .int 2025 }

/-- The same row billed in fiscal year 2024. -/
def rec2024 : Record := { recBuena with anioFacturacion := .int 2024 }

/-- A 2025 row whose mandatory `PROYECTO` is blank. -/
def recSinProyecto : Record := { recBuena with proyecto := .str "   ".data }

/-- A row with a missing (`None`) `ASESOR`. -/
def recAsesorNone : Record := { recBuena with asesor := .noneV }

/-! ### Toolbox: digit characters and digit strings -/

theorem digitChar_mem_DIGITS (n : ℕ) : digitChar n ∈ DIGITS := by
  unfold digitChar DIGITS
  repeat' split
  all_goals decide

theorem DIGITS_facts : ∀ c ∈ DIGITS,
    c.isDigit = true ∧ isSpace c = false ∧ (c == '-') = false ∧
      (c == '+') = false ∧ (c == '.') = false := by decide

theorem digitChar_val {n : ℕ} (h : n < 10) : (digitChar n).toNat - 48 = n := by
  interval_cases n <;> decide

theorem digitsVal_foldl (l : Str) (x : ℕ) :
    l.foldl (fun a c => 10 * a + (c.toNat - 48)) x
      = x * 10 ^ l.length + digitsVal l := by
  induction l generalizing x with
  | nil => simp [digitsVal]
  | cons c cs ih =>
    simp only [digitsVal, List.foldl_cons, List.length_cons]
    rw [ih, ih (10 * 0 + (c.toNat - 48))]
    ring

theorem digitsVal_singleton (c : Char) : digitsVal [c] = c.toNat - 48 := by
  show 10 * 0 + (c.toNat - 48) = c.toNat - 48
  omega

theorem digitsVal_append (a b : Str) :
    digitsVal (a ++ b) = digitsVal a * 10 ^ b.length + digitsVal b := by
  unfold digitsVal
  rw [List.foldl_append]
  exact digitsVal_foldl b _

theorem digitsVal_replicate_zero (k : ℕ) (s : Str) :
    digitsVal (List.replicate k '0' ++ s) = digitsVal s := by
  rw [digitsVal_append]
  have h : digitsVal (List.replicate k '0') = 0 := by
    induction k with
    | zero => rfl
    | succ n ih =>
      rw [List.replicate_succ]
      show List.foldl (fun a c => 10 * a + (c.toNat - 48)) 0
        ('0' :: List.replicate n '0') = 0
      rw [List.foldl_cons]
      have h0 : 10 * 0 + ('0'.toNat - 48) = 0 := by decide
      rw [h0]
      exact ih
  rw [h]
  simp

theorem natDigits_spec (n : ℕ) :
    natDigits n ≠ [] ∧ (∀ c ∈ natDigits n, c ∈ DIGITS)
      ∧ digitsVal (natDigits n) = n := by
  induction n using Nat.strong_induction_on with
  | _ n ih =>
    by_cases h : n < 10
    · rw [natDigits, dif_pos h]
      refine ⟨by simp, ?_, ?_⟩
      · intro c hc
        rw [List.mem_singleton] at hc
        rw [hc]
        exact digitChar_mem_DIGITS n
      · rw [digitsVal_singleton, digitChar_val h]
    · rw [natDigits, dif_neg h]
      have hlt : n / 10 < n := Nat.div_lt_self (by omega) (by omega)
      obtain ⟨ih1, ih2, ih3⟩ := ih (n / 10) hlt
      refine ⟨by simp, ?_, ?_⟩
      · intro c hc
        rcases List.mem_append.1 hc with hm | hm
        · exact ih2 c hm
        · rw [List.mem_singleton] at hm
          rw [hm]
          exact digitChar_mem_DIGITS (n % 10)
      · rw [digitsVal_append, ih3]
        have h10 : n % 10 < 10 := Nat.mod_lt _ (by omega)
        rw [digitsVal_singleton, digitChar_val h10]
        simp only [List.length_singleton, pow_one]
        omega

/-! ### Toolbox: strip, takeWhile, dropWhile -/

theorem dropWhile_eq_self {p : Char → Bool} {s : Str}
    (h : ∀ c ∈ s, p c = false) : s.dropWhile p = s := by
  cases s with
  | nil => rfl
  | cons c cs => simp [List.dropWhile_cons, h c (by simp)]

theorem pyStrip_eq_self {s : Str} (h : ∀ c ∈ s, isSpace c = false) :
    pyStrip s = s := by
  unfold pyStrip
  rw [dropWhile_eq_self h, dropWhile_eq_self, List.reverse_reverse]
  intro c hc
  exact h c (List.mem_reverse.1 hc)

theorem takeWhile_all {p : Char → Bool} {s : Str} (h : ∀ c ∈ s, p c = true) :
    s.takeWhile p = s ∧ s.dropWhile p = [] := by
  induction s with
  | nil => exact ⟨rfl, rfl⟩
  | cons c cs ih =>
    have hc := h c (by simp)
    obtain ⟨h1, h2⟩ := ih fun d hd => h d (by simp [hd])
    constructor
    · simp [List.takeWhile_cons, hc, h1]
    · simp [List.dropWhile_cons, hc, h2]

theorem takeWhile_append_stop {p : Char → Bool} {a b : Str} {c : Char}
    (ha : ∀ x ∈ a, p x = true) (hc : p c = false) :
    (a ++ c :: b).takeWhile p = a ∧ (a ++ c :: b).dropWhile p = c :: b := by
  induction a with
  | nil => simp [List.takeWhile_cons, List.dropWhile_cons, hc]
  | cons x xs ih =>
    have hx := ha x (by simp)
    obtain ⟨h1, h2⟩ := ih fun d hd => ha d (by simp [hd])
    constructor
    · simp [List.takeWhile_cons, hx, h1]
    · simp [List.dropWhile_cons, hx, h2]

/-! ### Toolbox: `floatParse` inverts `Dec.str` -/

theorem floatParse_pos_digits {body : Str} (hne : body ≠ [])
    (hd : ∀ c ∈ body, c ∈ DIGITS) :
    floatParse body = some ⟨false, digitsVal body, 0⟩ := by
  have hdig : ∀ c ∈ body, Char.isDigit c = true :=
    fun c hc => (DIGITS_facts c (hd c hc)).1
  have hstrip : pyStrip body = body :=
    pyStrip_eq_self fun c hc => (DIGITS_facts c (hd c hc)).2.1
  obtain ⟨htake, hdrop⟩ := takeWhile_all hdig
  obtain ⟨b0, bs, rfl⟩ := List.exists_cons_of_ne_nil hne
  have hb0 := DIGITS_facts b0 (hd b0 (by simp))
  unfold floatParse
  rw [hstrip]
  simp [hb0.2.2.1, hb0.2.2.2.1, htake, hdrop]

theorem floatParse_neg_digits {body : Str} (hne : body ≠ [])
    (hd : ∀ c ∈ body, c ∈ DIGITS) :
    floatParse ('-' :: body) = some ⟨true, digitsVal body, 0⟩ := by
  have hdig : ∀ c ∈ body, Char.isDigit c = true :=
    fun c hc => (DIGITS_facts c (hd c hc)).1
  have hstrip : pyStrip ('-' :: body) = '-' :: body := by
    apply pyStrip_eq_self
    intro c hc
    rcases List.mem_cons.1 hc with hm | hm
    · rw [hm]; decide
    · exact (DIGITS_facts c (hd c hm)).2.1
  obtain ⟨htake, hdrop⟩ := takeWhile_all hdig
  obtain ⟨b0, bs, rfl⟩ := List.exists_cons_of_ne_nil hne
  unfold floatParse
  rw [hstrip]
  simp [htake, hdrop]

theorem floatParse_pos_point {ip fp : Str} (hne : ip ≠ [])
    (hip : ∀ c ∈ ip, c ∈ DIGITS) (hfp : ∀ c ∈ fp, c ∈ DIGITS) :
    floatParse (ip ++ '.' :: fp)
      = some ⟨false, digitsVal (ip ++ fp), fp.length⟩ := by
  have hdigip : ∀ c ∈ ip, Char.isDigit c = true :=
    fun c hc => (DIGITS_facts c (hip c hc)).1
  have hdigfp : ∀ c ∈ fp, Char.isDigit c = true :=
    fun c hc => (DIGITS_facts c (hfp c hc)).1
  have hstrip : pyStrip (ip ++ '.' :: fp) = ip ++ '.' :: fp := by
    apply pyStrip_eq_self
    intro c hc
    rcases List.mem_append.1 hc with hm | hm
    · exact (DIGITS_facts c (hip c hm)).2.1
    · rcases List.mem_cons.1 hm with hm2 | hm2
      · rw [hm2]; decide
      · exact (DIGITS_facts c (hfp c hm2)).2.1
  obtain ⟨htake, hdrop⟩ :=
    @takeWhile_append_stop Char.isDigit ip fp '.' hdigip (by decide)
  obtain ⟨i0, is, rfl⟩ := List.exists_cons_of_ne_nil hne
  have hi0 := DIGITS_facts i0 (hip i0 (by simp))
  rw [List.cons_append] at htake hdrop hstrip ⊢
  unfold floatParse
  rw [hstrip]
  simp [hi0.1, hi0.2.2.1, hi0.2.2.2.1, htake, hdrop, hdigfp, List.cons_append]
  exact hdigfp

theorem floatParse_neg_point {ip fp : Str} (hne : ip ≠ [])
    (hip : ∀ c ∈ ip, c ∈ DIGITS) (hfp : ∀ c ∈ fp, c ∈ DIGITS) :
    floatParse ('-' :: (ip ++ '.' :: fp))
      = some ⟨true, digitsVal (ip ++ fp), fp.length⟩ := by
  have hdigip : ∀ c ∈ ip, Char.isDigit c = true :=
    fun c hc => (DIGITS_facts c (hip c hc)).1
  have hdigfp : ∀ c ∈ fp, Char.isDigit c = true :=
    fun c hc => (DIGITS_facts c (hfp c hc)).1
  have hstrip : pyStrip ('-' :: (ip ++ '.' :: fp)) = '-' :: (ip ++ '.' :: fp) := by
    apply pyStrip_eq_self
    intro c hc
    rcases List.mem_cons.1 hc with hm | hm
    · rw [hm]; decide
    rcases List.mem_append.1 hm with hm1 | hm1
    · exact (DIGITS_facts c (hip c hm1)).2.1
    rcases List.mem_cons.1 hm1 with hm2 | hm2
    · rw [hm2]; decide
    · exact (DIGITS_facts c (hfp c hm2)).2.1
  obtain ⟨htake, hdrop⟩ :=
    @takeWhile_append_stop Char.isDigit ip fp '.' hdigip (by decide)
  obtain ⟨i0, is, rfl⟩ := List.exists_cons_of_ne_nil hne
  have hi0 := DIGITS_facts i0 (hip i0 (by simp))
  rw [List.cons_append] at htake hdrop hstrip ⊢
  unfold floatParse
  rw [hstrip]
  simp [hi0.1, htake, hdrop, hdigfp, List.cons_append]
  exact hdigfp

theorem floatParse_decStr (d : Dec) : floatParse (Dec.str d) = some d := by
  obtain ⟨neg, m, e⟩ := d
  obtain ⟨hm1, hm2, hm3⟩ := natDigits_spec m
  cases e with
  | zero =>
    cases neg with
    | false =>
      show floatParse ([] ++ natDigits m) = _
      rw [List.nil_append, floatParse_pos_digits hm1 hm2, hm3]
    | true =>
      show floatParse (['-'] ++ natDigits m) = _
      rw [List.singleton_append, floatParse_neg_digits hm1 hm2, hm3]
  | succ k =>
    have hpadd : ∀ c ∈ List.replicate (k + 1 + 1 - (natDigits m).length) '0'
        ++ natDigits m, c ∈ DIGITS := by
      intro c hc
      rcases List.mem_append.1 hc with hm | hm
      · rw [List.eq_of_mem_replicate hm]; decide
      · exact hm2 c hm
    set ds := natDigits m with hds
    set pad := List.replicate (k + 1 + 1 - ds.length) '0' ++ ds with hpad
    have hdsne : 0 < ds.length := List.length_pos.2 hm1
    have hLlen : k + 1 + 1 ≤ pad.length := by
      rw [hpad, List.length_append, List.length_replicate]
      omega
    have hiplen : (pad.take (pad.length - (k + 1))).length
        = pad.length - (k + 1) := by
      rw [List.length_take]
      omega
    have hipne : pad.take (pad.length - (k + 1)) ≠ [] := by
      apply List.ne_nil_of_length_pos
      rw [hiplen]
      omega
    have hfplen : (pad.drop (pad.length - (k + 1))).length = k + 1 := by
      rw [List.length_drop]
      omega
    have hip : ∀ c ∈ pad.take (pad.length - (k + 1)), c ∈ DIGITS :=
      fun c hc => hpadd c (List.take_subset _ _ hc)
    have hfp : ∀ c ∈ pad.drop (pad.length - (k + 1)), c ∈ DIGITS :=
      fun c hc => hpadd c (List.drop_subset _ _ hc)
    have hval : digitsVal (pad.take (pad.length - (k + 1))
        ++ pad.drop (pad.length - (k + 1))) = m := by
      rw [List.take_append_drop, hpad, digitsVal_replicate_zero, hds, hm3]
    cases neg with
    | false =>
      show floatParse ([] ++ (pad.take (pad.length - (k + 1))
        ++ '.' :: pad.drop (pad.length - (k + 1)))) = _
      rw [List.nil_append, floatParse_pos_point hipne hip hfp, hval, hfplen]
    | true =>
      show floatParse (['-'] ++ (pad.take (pad.length - (k + 1))
        ++ '.' :: pad.drop (pad.length - (k + 1)))) = _
      rw [List.singleton_append, floatParse_neg_point hipne hip hfp, hval, hfplen]

/-! ### Toolbox: `validar_precio` outputs -/

theorem cero_toRat : cero.toRat = 0 := by
  show (if false then -((0 : ℕ) : ℚ) else ((0 : ℕ) : ℚ)) / (10 : ℚ) ^ 1 = 0
  norm_num

theorem Dec.isNeg_iff (d : Dec) : d.isNeg = true ↔ d.toRat < 0 := by
  obtain ⟨neg, m, e⟩ := d
  cases neg with
  | false =>
    apply iff_of_false (by simp [Dec.isNeg])
    rw [not_lt]
    have ht : Dec.toRat ⟨false, m, e⟩ = (m : ℚ) / (10 : ℚ) ^ e := by
      simp [Dec.toRat]
    rw [ht]
    positivity
  | true =>
    simp only [Dec.isNeg, Bool.true_and, bne_iff_ne, ne_eq]
    have ht : Dec.toRat ⟨true, m, e⟩ = -((m : ℚ) / (10 : ℚ) ^ e) := by
      simp [Dec.toRat, neg_div]
    rw [ht]
    constructor
    · intro hm
      rw [neg_lt_zero]
      exact div_pos (by exact_mod_cast Nat.pos_of_ne_zero hm) (by positivity)
    · intro hlt hm0
      rw [hm0] at hlt
      norm_num at hlt

theorem Dec.isNeg_false {d : Dec} (h : ¬ d.toRat < 0) : d.isNeg = false := by
  cases hh : d.isNeg with
  | false => rfl
  | true => exact absurd ((Dec.isNeg_iff d).1 hh) h

theorem Dec.eqNat_toRat {d : Dec} {n : ℕ} (h : d.eqNat n = true) : d.toRat = n := by
  obtain ⟨neg, m, e⟩ := d
  unfold Dec.eqNat at h
  rw [Bool.and_eq_true, beq_iff_eq] at h
  obtain ⟨hm, hneg⟩ := h
  dsimp only at hm hneg
  cases neg with
  | false =>
    have ht : Dec.toRat ⟨false, m, e⟩ = (m : ℚ) / (10 : ℚ) ^ e := by
      simp [Dec.toRat]
    rw [ht, hm]
    push_cast
    field_simp
  | true =>
    simp only [Bool.not_true, Bool.false_or, beq_iff_eq] at hneg
    rw [hneg] at hm
    have hn : n = 0 := by
      rcases Nat.mul_eq_zero.1 hm.symm with h0 | h0
      · exact h0
      · exact absurd h0 (by positivity)
    have ht : Dec.toRat ⟨true, m, e⟩ = -((m : ℚ) / (10 : ℚ) ^ e) := by
      simp [Dec.toRat, neg_div]
    rw [ht, hneg, hn]
    norm_num

theorem parsePrecio_not_neg (l o : Str) : ¬ (parsePrecio l o).1.toRat < 0 := by
  unfold parsePrecio
  split
  · split
    · simp [cero_toRat]
    · rename_i hnneg
      exact fun hc => by
        rw [Bool.not_eq_true] at hnneg
        rw [← Dec.isNeg_iff] at hc
        simp [hnneg] at hc
  · simp [cero_toRat]

theorem validar_precio_not_neg (v : PyVal) :
    ¬ (validar_precio v).1.toRat < 0 := by
  unfold validar_precio
  cases v with
  | str s =>
    simp only []
    split
    · simp [cero_toRat]
    · exact parsePrecio_not_neg _ _
  | int z => exact parsePrecio_not_neg _ _
  | float d => exact parsePrecio_not_neg _ _
  | noneV => exact parsePrecio_not_neg _ _

theorem validar_precio_refeed (d : Dec) (h : ¬ d.toRat < 0) :
    validar_precio (.float d) = (d, "OK") := by
  unfold validar_precio parsePrecio
  simp only [pyStrOfVal]
  rw [floatParse_decStr]
  simp [Dec.isNeg_false h]

/-! ### Toolbox: `pySplit` and `joinSep` -/

theorem pySplit_ne_nil (sep : Char) (s : Str) : pySplit sep s ≠ [] := by
  induction s with
  | nil => simp [pySplit]
  | cons c cs ih =>
    unfold pySplit
    split
    · simp
    · split <;> simp

theorem joinSep_pySplit (sep : Char) (s : Str) :
    joinSep sep (pySplit sep s) = s := by
  induction s with
  | nil => rfl
  | cons c cs ih =>
    cases hsp : pySplit sep cs with
    | nil => exact absurd hsp (pySplit_ne_nil sep cs)
    | cons p ps =>
      rw [hsp] at ih
      have heq : pySplit sep (c :: cs)
          = if c = sep then [] :: p :: ps else (c :: p) :: ps := by
        simp only [pySplit, hsp]
      rw [heq]
      by_cases hc : c = sep
      · rw [if_pos hc, hc]
        show [] ++ sep :: joinSep sep (p :: ps) = sep :: cs
        rw [List.nil_append, ih]
      · rw [if_neg hc]
        cases ps with
        | nil =>
          show c :: p = c :: cs
          have : p = cs := ih
          rw [this]
        | cons q qs =>
          show (c :: p) ++ sep :: joinSep sep (q :: qs) = c :: cs
          have : p ++ sep :: joinSep sep (q :: qs) = cs := ih
          rw [List.cons_append, this]

theorem getLast?_mem' {l : Str} {c : Char} (h : l.getLast? = some c) : c ∈ l := by
  induction l with
  | nil => simp at h
  | cons a as ih =>
    cases as with
    | nil =>
      simp [List.getLast?] at h
      simp [h]
    | cons b bs =>
      rw [List.getLast?_cons_cons] at h
      exact List.mem_cons_of_mem a (ih h)

theorem getLast?_joinSep {sep : Char} {p : Str} (hp : p ≠ []) :
    ∀ init : List Str, (joinSep sep (init ++ [p])).getLast? = p.getLast? := by
  intro init
  induction init with
  | nil => rfl
  | cons q init ih =>
    cases hin : init ++ [p] with
    | nil => simp at hin
    | cons r rs =>
      have hj : joinSep sep (q :: init ++ [p]) = q ++ sep :: joinSep sep (init ++ [p]) := by
        rw [List.cons_append, hin]
        rfl
      rw [hj]
      have hsome : (joinSep sep (init ++ [p])).getLast?.isSome := by
        rw [ih]
        rw [Option.isSome_iff_exists]
        have := List.getLast?_isSome.2 hp
        rw [Option.isSome_iff_exists] at this
        exact this
      have h1 : (sep :: joinSep sep (init ++ [p])).getLast?
          = (joinSep sep (init ++ [p])).getLast? := by
        show ([sep] ++ joinSep sep (init ++ [p])).getLast? = _
        rw [List.getLast?_append, Option.or_of_isSome hsome]
      rw [List.getLast?_append]
      rw [show (sep :: joinSep sep (init ++ [p])).getLast?.or q.getLast?
          = (joinSep sep (init ++ [p])).getLast?.or q.getLast? from by rw [h1]]
      rw [Option.or_of_isSome hsome]
      exact ih

theorem codigo_last_digit {s : Str}
    (h6 : (pySplit '-' s).length = 6)
    (hd : (pySplit '-' s).all pyIsdigit = true) : lastIsDigit s = true := by
  rcases List.eq_nil_or_concat (pySplit '-' s) with hnil | ⟨init, last, hcat⟩
  · rw [hnil] at h6; simp at h6
  · rw [List.concat_eq_append] at hcat
    have hlast : pyIsdigit last = true := by
      refine List.all_eq_true.1 hd last ?_
      rw [hcat]
      simp
    have hlne : last ≠ [] := by
      intro h
      rw [h] at hlast
      simp [pyIsdigit] at hlast
    have hjoin := joinSep_pySplit '-' s
    rw [hcat] at hjoin
    have hgl := @getLast?_joinSep '-' last hlne init
    rw [hjoin] at hgl
    obtain ⟨c, hc⟩ := Option.isSome_iff_exists.1 (List.getLast?_isSome.2 hlne)
    have hcm : c ∈ last := getLast?_mem' hc
    unfold pyIsdigit at hlast
    rw [Bool.and_eq_true] at hlast
    have hall : ∀ x ∈ last, x.isDigit = true := List.all_eq_true.1 hlast.2
    unfold lastIsDigit
    rw [hgl, hc]
    exact hall c hcm

theorem guiones_msg_ne (x : String) :
    "Debe tener 5 guiones (tiene " ++ x ++ ")" ≠ "Debe terminar con un dígito" := by
  intro h
  have hd := congrArg String.data h
  rw [String.data_append, String.data_append, List.append_assoc] at hd
  have h8 := congrArg (List.take 8) hd
  rw [List.take_append_of_le_length (by decide)] at h8
  exact absurd h8 (by decide)

/-- C9: the final-character check of `validar_codigo` is unreachable — no
input ever yields the reason `"Debe terminar con un dígito"`, because a
string that passes the six-segment and all-digit checks necessarily ends in
a digit. -/
theorem c9_last_check_unreachable (v : PyVal) :
    (validar_codigo v).2 ≠ "Debe terminar con un dígito" := by
  cases v with
  | str s =>
    simp only [validar_codigo]
    split_ifs with h1 h2 h3 h4
    · exact guiones_msg_ne _
    · decide
    · decide
    · exact absurd (codigo_last_digit (not_ne_iff.1 h1) h2) h4
    · decide
  | int z =>
    show ("No es una cadena de texto" : String) ≠ _
    decide
  | float d =>
    show ("No es una cadena de texto" : String) ≠ _
    decide
  | noneV => decide

/-- C4: `validar_codigo` is total and applies its checks short-circuited in
order — string, six dash-separated segments, all segments numeric, 5th
segment of six digits, final digit — each failure with its own reason;
`"0-35-13-3203-012025-100"` is valid, `"0-35-13-3203-12025-100"` fails the
six-digit-segment check, non-strings fail the string check. -/
theorem c4_validar_codigo_checks :
    validar_codigo (.str "0-35-13-3203-012025-100".data) = (true, "Válido")
    ∧ validar_codigo (.str "0-35-13-3203-12025-100".data)
        = (false, "La parte 5 debe tener 6 dígitos (año-mes)")
    ∧ (∀ z : ℤ, validar_codigo (.int z) = (false, "No es una cadena de texto"))
    ∧ (∀ d : Dec, validar_codigo (.float d) = (false, "No es una cadena de texto"))
    ∧ validar_codigo .noneV = (false, "No es una cadena de texto")
    ∧ (∀ s : Str,
        ((pySplit '-' s).length ≠ 6 →
          validar_codigo (.str s) = (false, "Debe tener 5 guiones (tiene "
            ++ toString ((pySplit '-' s).length - 1) ++ ")"))
        ∧ ((pySplit '-' s).length = 6 → (pySplit '-' s).all pyIsdigit = false →
            validar_codigo (.str s)
              = (false, "Todas las partes deben ser numéricas"))
        ∧ ((pySplit '-' s).length = 6 → (pySplit '-' s).all pyIsdigit = true →
            ((pySplit '-' s).getD 4 []).length ≠ 6 →
            validar_codigo (.str s)
              = (false, "La parte 5 debe tener 6 dígitos (año-mes)"))
        ∧ ((pySplit '-' s).length = 6 → (pySplit '-' s).all pyIsdigit = true →
            ((pySplit '-' s).getD 4 []).length = 6 →
            validar_codigo (.str s) = (true, "Válido"))) := by
  refine ⟨by decide, by decide, fun z => rfl, fun d => rfl, rfl, fun s => ?_⟩
  refine ⟨?_, ?_, ?_, ?_⟩
  · intro h
    simp only [validar_codigo]
    rw [if_pos h]
  · intro h6 hall
    simp only [validar_codigo]
    rw [if_neg (not_ne_iff.2 h6), if_pos (by simp [hall])]
  · intro h6 hall h5
    simp only [validar_codigo]
    rw [if_neg (not_ne_iff.2 h6), if_neg (by simp [hall]), if_pos h5]
  · intro h6 hall h5
    simp only [validar_codigo]
    rw [if_neg (not_ne_iff.2 h6), if_neg (by simp [hall]),
      if_neg (not_ne_iff.2 h5),
      if_neg (Decidable.not_not.2 (codigo_last_digit h6 hall))]

theorem c4_witness :
    validar_codigo (.str "1-2-3".data) = (false, "Debe tener 5 guiones (tiene 2)")
    ∧ validar_codigo (.str "a-b-c-d-e-f".data)
        = (false, "Todas las partes deben ser numéricas")
    ∧ validar_codigo (.str "1-2-3-4-5-6".data)
        = (false, "La parte 5 debe tener 6 dígitos (año-mes)")
    ∧ validar_codigo (.str "1-2-3-4-123456-6".data) = (true, "Válido") := by
  refine ⟨?_, ?_, ?_, ?_⟩
  · exact ((c4_validar_codigo_checks.2.2.2.2.2 "1-2-3".data).1
      (by decide)).trans (by decide)
  · exact ((c4_validar_codigo_checks.2.2.2.2.2 "a-b-c-d-e-f".data).2.1
      (by decide) (by decide)).trans (by decide)
  · exact ((c4_validar_codigo_checks.2.2.2.2.2 "1-2-3-4-5-6".data).2.2.1
      (by decide) (by decide) (by decide)).trans (by decide)
  · exact (c4_validar_codigo_checks.2.2.2.2.2 "1-2-3-4-123456-6".data).2.2.2
      (by decide) (by decide) (by decide)

/-- C3: `validar_precio` never raises and, for every input: a string whose
trimmed upper-cased form contains a cancellation marker yields exactly `0.0`
with a reason citing that marker; `"S/ 1,234.50"` yields `1234.50` with
reason `OK`; a negative parsed value yields `0.0` with the negative-value
reason; an unparseable value yields `0.0` with a non-numeric reason that
preserves the original raw text. -/
theorem c3_validar_precio :
    (∀ s : Str, contieneMarcador s = true →
      (validar_precio (.str s)).1 = cero
      ∧ ∃ t ∈ textos_a_reemplazar, pyContains t (pyUpper (pyStrip s)) = true
          ∧ (validar_precio (.str s)).2
            = "Reemplazado por 0 (contiene \x27" ++ String.mk t ++ "\x27)")
    ∧ (validar_precio (.str "S/ 1,234.50".data) = (⟨false, 123450, 2⟩, "OK")
        ∧ Dec.toRat ⟨false, 123450, 2⟩ = 1234.5)
    ∧ (∀ (s : Str) (d : Dec), contieneMarcador s = false →
        floatParse (precioLimpioStr s) = some d → d.toRat < 0 →
        validar_precio (.str s) = (cero, "Reemplazado por 0 (valor negativo)"))
    ∧ (∀ s : Str, contieneMarcador s = false →
        floatParse (precioLimpioStr s) = none →
        validar_precio (.str s) = (cero,
          "Reemplazado por 0 (valor no numérico: \x27" ++ String.mk s ++ "\x27)"))
    ∧ cero.toRat = 0
    ∧ (∀ v : PyVal, ¬ (validar_precio v).1.toRat < 0) := by
  refine ⟨?_, ⟨by decide, ?_⟩, ?_, ?_, cero_toRat, validar_precio_not_neg⟩
  · intro s h
    rw [contieneMarcador, List.any_eq_true] at h
    obtain ⟨t0, ht0, hpt0⟩ := h
    cases hf : textos_a_reemplazar.find? (fun t => pyContains t (pyUpper (pyStrip s))) with
    | none =>
      rw [List.find?_eq_none] at hf
      exact absurd hpt0 (hf t0 ht0)
    | some t =>
      have hres : validar_precio (.str s)
          = (cero, "Reemplazado por 0 (contiene \x27" ++ String.mk t ++ "\x27)") := by
        simp only [validar_precio, hf]
      have hpt : pyContains t (pyUpper (pyStrip s)) = true := by
        simpa using List.find?_some hf
      exact ⟨by rw [hres], t, List.mem_of_find?_eq_some hf, hpt, by rw [hres]⟩
  · show (if (false : Bool) then -((123450 : ℕ) : ℚ) else ((123450 : ℕ) : ℚ))
      / (10 : ℚ) ^ 2 = 1234.5
    norm_num
  · intro s d h hp hneg
    have hfnone : textos_a_reemplazar.find?
        (fun t => pyContains t (pyUpper (pyStrip s))) = none := by
      rw [List.find?_eq_none]
      rw [contieneMarcador] at h
      exact List.any_eq_false.1 h
    rw [precioLimpioStr] at hp
    simp only [validar_precio, hfnone, parsePrecio, hp]
    rw [if_pos ((Dec.isNeg_iff d).2 hneg)]
  · intro s h hp
    have hfnone : textos_a_reemplazar.find?
        (fun t => pyContains t (pyUpper (pyStrip s))) = none := by
      rw [List.find?_eq_none]
      rw [contieneMarcador] at h
      exact List.any_eq_false.1 h
    rw [precioLimpioStr] at hp
    simp only [validar_precio, hfnone, parsePrecio, hp, pyStrOfVal]

theorem c3_witness :
    (validar_precio (.str "  ANULADO ".data)).1 = cero
    ∧ validar_precio (.str "-5".data)
        = (cero, "Reemplazado por 0 (valor negativo)")
    ∧ validar_precio (.str "abc".data)
        = (cero, "Reemplazado por 0 (valor no numérico: \x27"
            ++ String.mk "abc".data ++ "\x27)") :=
  ⟨(c3_validar_precio.1 "  ANULADO ".data (by decide)).1,
   c3_validar_precio.2.2.1 "-5".data ⟨true, 5, 0⟩ (by decide) (by decide)
     (by norm_num [Dec.toRat]),
   c3_validar_precio.2.2.2.1 "abc".data (by decide) (by decide)⟩

/-- C5 counterexample: `validar_mes` accepts the float `12.5`, a number
outside the closed range `[1, 12]`, because Python `int()` truncates before
the range test. -/
theorem c5_counterexample :
    validar_mes (PyVal.float ⟨false, 125, 1⟩) = true
    ∧ (12 : ℚ) < Dec.toRat ⟨false, 125, 1⟩ := by
  constructor
  · decide
  · show (12 : ℚ) < (if (false : Bool) then -((125 : ℕ) : ℚ) else ((125 : ℕ) : ℚ))
      / (10 : ℚ) ^ 1
    norm_num

/-- C5 (amended): `validar_mes` is true exactly for strings matching one of
the twelve canonical month names (including SETIEMBRE) case- and
surrounding-space-insensitively, and for numbers whose truncation toward
zero lies in `[1, 12]` — not the numbers in the closed range `[1, 12]`
(e.g. `12.5` is accepted); it is false for everything else, including null;
true for `"Enero"`, `"  DICIEMBRE "`, `7`, `12.0`, false for `13`, `0`,
`"Miercoles"`, `None`. -/
theorem c5_validar_mes_amended :
    (∀ v : PyVal, validar_mes v = true ↔
      ((∃ s, v = .str s ∧ pyUpper (pyStrip s) ∈
          (["ENERO", "FEBRERO", "MARZO", "ABRIL", "MAYO", "JUNIO", "JULIO",
            "AGOSTO", "SEPTIEMBRE", "SETIEMBRE", "OCTUBRE", "NOVIEMBRE",
            "DICIEMBRE"].map String.data))
        ∨ (∃ z : ℤ, v = .int z ∧ 1 ≤ z ∧ z ≤ 12)
        ∨ (∃ d : Dec, v = .float d ∧ 1 ≤ d.trunc ∧ d.trunc ≤ 12)))
    ∧ validar_mes (.str "Enero".data) = true
    ∧ validar_mes (.str "  DICIEMBRE ".data) = true
    ∧ validar_mes (.int 7) = true
    ∧ validar_mes (.float ⟨false, 120, 1⟩) = true
    ∧ validar_mes (.int 13) = false
    ∧ validar_mes (.int 0) = false
    ∧ validar_mes (.str "Miercoles".data) = false
    ∧ validar_mes .noneV = false := by
  refine ⟨?_, by decide, by decide, by decide, by decide, by decide, by decide,
    by decide, by decide⟩
  intro v
  cases v with
  | str s =>
    show meses_validos.contains (pyUpper (pyStrip s)) = true ↔ _
    rw [show (["ENERO", "FEBRERO", "MARZO", "ABRIL", "MAYO", "JUNIO", "JULIO",
      "AGOSTO", "SEPTIEMBRE", "SETIEMBRE", "OCTUBRE", "NOVIEMBRE",
      "DICIEMBRE"].map String.data) = meses_validos from rfl]
    constructor
    · intro h
      exact Or.inl ⟨s, rfl, List.elem_iff.1 h⟩
    · rintro (⟨s2, hs2, hm⟩ | ⟨z, hz, _⟩ | ⟨d, hd, _⟩)
      · cases hs2
        exact List.elem_iff.2 hm
      · simp at hz
      · simp at hd
  | int z =>
    show decide (1 ≤ z ∧ z ≤ 12) = true ↔ _
    rw [decide_eq_true_iff]
    constructor
    · intro h
      exact Or.inr (Or.inl ⟨z, rfl, h.1, h.2⟩)
    · rintro (⟨s2, hs2, _⟩ | ⟨z2, hz2, h1, h2⟩ | ⟨d, hd, _⟩)
      · simp at hs2
      · cases hz2
        exact ⟨h1, h2⟩
      · simp at hd
  | float d =>
    show decide (1 ≤ d.trunc ∧ d.trunc ≤ 12) = true ↔ _
    rw [decide_eq_true_iff]
    constructor
    · intro h
      exact Or.inr (Or.inr ⟨d, rfl, h.1, h.2⟩)
    · rintro (⟨s2, hs2, _⟩ | ⟨z2, hz2, _⟩ | ⟨d2, hd2, h1, h2⟩)
      · simp at hs2
      · simp at hz2
      · cases hd2
        exact ⟨h1, h2⟩
  | noneV =>
    refine iff_of_false (by decide) ?_
    rintro (⟨s2, hs2, _⟩ | ⟨z2, hz2, _⟩ | ⟨d2, hd2, _⟩) <;> simp_all

/-- C6 counterexample: the cleaning stage turns a missing (`None`) advisor
into the literal string `"NONE"`, while `limpiar_texto` (normalize_text)
passes non-strings through unchanged — so the pipeline does not apply
normalize_text semantics to non-string values. -/
theorem c6_counterexample :
    (limpiarRecord recAsesorNone).asesor = "NONE".data
    ∧ limpiar_texto PyVal.noneV = PyVal.noneV
    ∧ PyVal.str ((limpiarRecord recAsesorNone).asesor) ≠ recAsesorNone.asesor := by
  refine ⟨by decide, rfl, by decide⟩

/-- C6 (amended): the cleaning stage maps each designated free-text field
(advisor, realty-agency, service, project, district, region-membership,
code) through Python `str()` conversion followed by trim and upper-case;
on string values this agrees with `limpiar_texto` (normalize_text), but a
non-string value is converted to its string form and normalized rather
than passed through unchanged. -/
theorem c6_text_cleaning_amended :
    (∀ r : Record, textFieldsClean (limpiarRecord r) = (textFields r).map aTexto)
    ∧ (∀ s : Str, PyVal.str (aTexto (.str s)) = limpiar_texto (.str s)) := by
  exact ⟨fun r => rfl, fun s => rfl⟩

theorem modEntries_eq_nil {l : List Record}
    (h : ∀ r ∈ l, (validar_precio r.precio).2 = "OK") : modEntries l = [] := by
  unfold modEntries
  rw [List.filterMap_eq_nil_iff]
  intro p hp
  obtain ⟨i, r⟩ := p
  have hr : r ∈ l := by
    obtain ⟨hlt, heq⟩ := List.mem_enum hp
    rw [heq]
    exact List.getElem_mem hlt
  simp [h r hr]

/-- C8: the cleaning stage is idempotent on its own output — re-running it
over the already-cleaned record set produces no new modification entries,
i.e. every cleaned price re-normalizes with reason OK. -/
theorem c8_cleaner_idempotent (df : List Record) :
    modEntries ((limpieza df).map fun p => reinject p.2) = [] := by
  apply modEntries_eq_nil
  intro r hr
  rw [List.mem_map] at hr
  obtain ⟨p, hp, rfl⟩ := hr
  unfold limpieza at hp
  rw [List.mem_map] at hp
  obtain ⟨q, hq, rfl⟩ := hp
  show (validar_precio (reinject (limpiarRecord q.2)).precio).2 = "OK"
  have h1 : (reinject (limpiarRecord q.2)).precio
      = .float ((validar_precio q.2.precio).1) := rfl
  rw [h1, validar_precio_refeed _ (validar_precio_not_neg q.2.precio)]

/-- C10: every record returned by `limpiar_y_validar_dataframe` has a
billing year present and equal to 2025 and a code that `validar_codigo`
accepts. -/
theorem c10_returned_records_invariant (df : List Record)
    (rows : List (ℕ × CleanRecord))
    (h : limpiar_y_validar_dataframe df = .ok rows) :
    ∀ p ∈ rows,
      (∃ d, p.2.anioFacturacion = some d ∧ d.toRat = 2025)
        ∧ (validar_codigo (.str p.2.codigo)).1 = true := by
  intro p hp
  simp only [limpiar_y_validar_dataframe] at h
  split at h
  case isTrue =>
    have hrows : rows = df_filtrado (limpieza df) := by
      cases h
      rfl
    rw [hrows] at hp
    unfold df_filtrado at hp
    rw [List.mem_filter] at hp
    obtain ⟨hp2025, hpcod⟩ := hp
    unfold df_2025 at hp2025
    rw [List.mem_filter] at hp2025
    obtain ⟨_, hanio⟩ := hp2025
    constructor
    · unfold esAnio2025 at hanio
      cases ha : p.2.anioFacturacion with
      | none => rw [ha] at hanio; simp at hanio
      | some d =>
        rw [ha] at hanio
        exact ⟨d, rfl, Dec.eqNat_toRat hanio⟩
    · exact hpcod
  case isFalse => exact absurd h (by simp)

theorem c10_witness :
    (∃ d, (limpiarRecord recBuena).anioFacturacion = some d ∧ d.toRat = 2025)
      ∧ (validar_codigo (.str (limpiarRecord recBuena).codigo)).1 = true :=
  c10_returned_records_invariant [recBuena] [(0, limpiarRecord recBuena)]
    (by rfl) (0, limpiarRecord recBuena) (by simp)

/-- C2: if any record of the admitted 2025 subset fails the completeness
pass, `limpiar_y_validar_dataframe` raises with a message made of the first
5 per-record error blocks plus a count of the remainder, and the run
touches the database in no way; if no record fails, the record set is
returned without raising. -/
theorem c2_batch_validation_failure (df : List Record) (fails : ℕ → Bool) :
    (errores (df_filtrado (limpieza df)) ≠ [] →
      limpiar_y_validar_dataframe df
          = .error (mkErrorMsg (errores (df_filtrado (limpieza df))))
        ∧ mainRun df fails
          = ([], .error (mkErrorMsg (errores (df_filtrado (limpieza df)))))
        ∧ mkErrorMsg (errores (df_filtrado (limpieza df)))
          = ("Errores de validación encontrados:" ++ String.intercalate "\n"
              ((errores (df_filtrado (limpieza df))).take 5))
            ++ (if 5 < (errores (df_filtrado (limpieza df))).length then
                  "\n  ... y "
                    ++ toString ((errores (df_filtrado (limpieza df))).length - 5)
                    ++ " registros más con errores"
                else ""))
    ∧ (errores (df_filtrado (limpieza df)) = [] →
        limpiar_y_validar_dataframe df = .ok (df_filtrado (limpieza df))) := by
  constructor
  · intro hne
    have hempty : (errores (df_filtrado (limpieza df))).isEmpty = false := by
      rw [← Bool.not_eq_true, List.isEmpty_iff]
      exact hne
    have hlim : limpiar_y_validar_dataframe df
        = .error (mkErrorMsg (errores (df_filtrado (limpieza df)))) := by
      unfold limpiar_y_validar_dataframe
      rw [if_neg (by simp [hempty])]
    refine ⟨hlim, ?_, ?_⟩
    · unfold mainRun
      rw [hlim]
    · unfold mkErrorMsg
      split_ifs with hlen
      · simp [String.append_assoc]
      · rw [String.append_empty]
  · intro he
    unfold limpiar_y_validar_dataframe
    rw [if_pos (by rw [List.isEmpty_iff]; exact he)]

theorem c2_witness :
    limpiar_y_validar_dataframe [recSinProyecto]
        = .error (mkErrorMsg (errores (df_filtrado (limpieza [recSinProyecto]))))
      ∧ (mainRun [recSinProyecto] (fun _ => false)).1 = [] := by
  have h := (c2_batch_validation_failure [recSinProyecto] (fun _ => false)).1
    (by decide)
  exact ⟨h.1, by rw [h.2.1]⟩

/-- C1 (code evaluated at the failing input): a fully valid record billed
in 2024 is absent from the set `limpiar_y_validar_dataframe` returns, even
though the concatenation `df_final` built inside the filter step contains
it — the source constructs and logs `df_final = df_filtrado + otros_anios`
but returns `df_filtrado`. -/
theorem c1_other_years_dropped :
    limpiar_y_validar_dataframe [rec2024] = .ok []
      ∧ df_final (limpieza [rec2024]) = [(0, limpiarRecord rec2024)]
      ∧ limpieza [rec2024] = [(0, limpiarRecord rec2024)] := by
  refine ⟨by rfl, by rfl, by rfl⟩

theorem insertLoop_mem_insert (fails : ℕ → Bool) (l : List ℕ) :
    ∀ ev ∈ (insertLoop fails l).1, ∃ i, ev = .insert i := by
  induction l with
  | nil => simp [insertLoop]
  | cons i rest ih =>
    intro ev hev
    unfold insertLoop at hev
    split at hev
    · simp at hev
      exact ⟨i, hev⟩
    · simp only [] at hev
      rcases List.mem_cons.1 hev with h | h
      · exact ⟨i, h⟩
      · exact ih ev h

theorem insertLoop_all_ok (fails : ℕ → Bool) (l : List ℕ)
    (h : (insertLoop fails l).2 = true) :
    (insertLoop fails l).1 = l.map DbEvent.insert := by
  induction l with
  | nil => rfl
  | cons i rest ih =>
    unfold insertLoop at h ⊢
    by_cases hf : fails i = true
    · rw [if_pos hf] at h
      simp at h
    · rw [if_neg hf] at h ⊢
      dsimp only at h ⊢
      rw [List.map_cons, ih h]

theorem not_mem_trace {es : List DbEvent}
    (hins : ∀ ev ∈ es, ∃ i, ev = DbEvent.insert i) {x y : DbEvent}
    (h1 : x ≠ DbEvent.connect) (h2 : ∀ i, x ≠ DbEvent.insert i)
    (h3 : x ≠ y) (h4 : x ≠ DbEvent.close) :
    x ∉ DbEvent.connect :: es ++ [y, DbEvent.close] := by
  intro hmem
  rcases List.mem_append.1 hmem with h | h
  · rcases List.mem_cons.1 h with hm | hm
    · exact h1 hm
    · obtain ⟨i, hi⟩ := hins _ hm
      exact h2 i hi
  · rcases List.mem_cons.1 h with hm2 | hm2
    · exact h3 hm2
    · rcases List.mem_cons.1 hm2 with hm3 | hm3
      · exact h4 hm3
      · simp at hm3

/-- C7: in the transactional load, a failed insert leads to `rollback` with
`commit` never emitted; `commit` happens only after an `insert` for every
admitted record; and the connection, once opened, is closed as the final
action of every run, successful or not. -/
theorem c7_transactional_load (df : List Record) (fails : ℕ → Bool) :
    (DbEvent.connect ∈ (mainRun df fails).1 →
      (mainRun df fails).1.getLast? = some DbEvent.close)
    ∧ ((mainRun df fails).2 = .ok () →
        DbEvent.commit ∈ (mainRun df fails).1
          ∧ DbEvent.rollback ∉ (mainRun df fails).1)
    ∧ (∀ e : String, (mainRun df fails).2 = .error e →
        DbEvent.connect ∈ (mainRun df fails).1 →
        DbEvent.rollback ∈ (mainRun df fails).1
          ∧ DbEvent.commit ∉ (mainRun df fails).1)
    ∧ (∀ rows, limpiar_y_validar_dataframe df = .ok rows →
        DbEvent.commit ∈ (mainRun df fails).1 →
        ∀ p ∈ rows, DbEvent.insert p.1 ∈ (mainRun df fails).1) := by
  cases hlim : limpiar_y_validar_dataframe df with
  | error e0 =>
    have hrun : mainRun df fails = ([], .error e0) := by
      unfold mainRun
      rw [hlim]
    rw [hrun]
    refine ⟨by simp, by simp, fun e he hc => absurd hc (by simp), ?_⟩
    intro rows hrows
    exact absurd hrows (by simp)
  | ok rows0 =>
    have hfst : ((rows0.map fun p => (p.1, transformarMesesRecord p.2)).map
        Prod.fst) = rows0.map Prod.fst := by
      simp
    set l0 := ((rows0.map fun p => (p.1, transformarMesesRecord p.2)).map
      Prod.fst) with hl0
    have hrun : mainRun df fails =
        (if (insertLoop fails l0).2 then
          (DbEvent.connect :: (insertLoop fails l0).1
            ++ [DbEvent.commit, DbEvent.close], .ok ())
         else
          (DbEvent.connect :: (insertLoop fails l0).1
            ++ [DbEvent.rollback, DbEvent.close],
           .error "No se insertó ningún registro debido a errores")) := by
      unfold mainRun
      rw [hlim]
    have hins := insertLoop_mem_insert fails l0
    cases hok : (insertLoop fails l0).2 with
    | true =>
      rw [hok, if_pos rfl] at hrun
      rw [hrun]
      have hsplit : DbEvent.connect :: (insertLoop fails l0).1
          ++ [DbEvent.commit, DbEvent.close]
          = (DbEvent.connect :: (insertLoop fails l0).1 ++ [DbEvent.commit])
            ++ [DbEvent.close] := by simp
      refine ⟨?_, ?_, ?_, ?_⟩
      · intro _
        show (DbEvent.connect :: (insertLoop fails l0).1
          ++ [DbEvent.commit, DbEvent.close]).getLast? = some DbEvent.close
        rw [hsplit]
        exact List.getLast?_concat _
      · intro _
        exact ⟨by simp,
          not_mem_trace hins (by simp) (by simp) (by simp) (by simp)⟩
      · intro e he
        exact absurd he (by simp)
      · intro rows hrows _ p hp
        have hr : rows0 = rows := by
          injection hrows
        rw [← hr] at hp
        show DbEvent.insert p.1 ∈ DbEvent.connect :: (insertLoop fails l0).1
          ++ [DbEvent.commit, DbEvent.close]
        rw [List.mem_append]
        left
        rw [List.mem_cons]
        right
        rw [insertLoop_all_ok fails l0 hok, hfst]
        exact List.mem_map.2 ⟨p.1, List.mem_map.2 ⟨p, hp, rfl⟩, rfl⟩
    | false =>
      rw [hok, if_neg (by simp)] at hrun
      rw [hrun]
      have hsplit : DbEvent.connect :: (insertLoop fails l0).1
          ++ [DbEvent.rollback, DbEvent.close]
          = (DbEvent.connect :: (insertLoop fails l0).1 ++ [DbEvent.rollback])
            ++ [DbEvent.close] := by simp
      refine ⟨?_, ?_, ?_, ?_⟩
      · intro _
        show (DbEvent.connect :: (insertLoop fails l0).1
          ++ [DbEvent.rollback, DbEvent.close]).getLast? = some DbEvent.close
        rw [hsplit]
        exact List.getLast?_concat _
      · intro hok2
        exact absurd hok2 (by simp)
      · intro e _ _
        exact ⟨by simp,
          not_mem_trace hins (by simp) (by simp) (by simp) (by simp)⟩
      · intro rows hrows hcommit
        exact absurd hcommit
          (not_mem_trace hins (by simp) (by simp) (by simp) (by simp))

theorem c7_witness :
    DbEvent.rollback ∈ (mainRun [recBuena] (fun _ => true)).1
      ∧ DbEvent.commit ∉ (mainRun [recBuena] (fun _ => true)).1
      ∧ (mainRun [recBuena] (fun _ => false)).1.getLast? = some DbEvent.close := by
  have h1 := (c7_transactional_load [recBuena] (fun _ => true)).2.2.1
    "No se insertó ningún registro debido a errores" (by rfl) (by decide)
  have h2 := (c7_transactional_load [recBuena] (fun _ => false)).1 (by decide)
  exact ⟨h1.1, h1.2, h2⟩

end Sabana
